import Mathlib

/-!
Shallow embedding of `randombytes_sysrandom.c` (libsodium's system random
provider) and proofs of the specification claims about it.

The provider state is the process-wide `SysRandom stream` singleton.  The
environment (the OS) is made explicit: the result of opening an entropy
device is an `Int` parameter (`-1` meaning failure, as `open(2)` returns),
and the behaviour of the entropy device across successive `read(2)` calls
is a script, a list of `ReadEvent`s, one per issued `read` syscall.
`abort()` is modelled by the `aborted` outcome; a read that would block
forever because the script ran out is `stuck`.
-/

namespace Sysrandom

/-- The `SysRandom` struct of the POSIX build: a file descriptor
(`-1` when absent) and the `initialized` flag. -/
structure SysRandom where
  random_data_source_fd : Int
  initialized : Bool
  deriving DecidableEq, Repr

/-- The initial value of the static `stream` singleton:
`{ .random_data_source_fd = -1, .initialized = 0 }`. -/
def stream : SysRandom :=
  { random_data_source_fd := -1, initialized := false }

/-- What one `read(2)` syscall against the entropy device does:
return a chunk of bytes (`[]` meaning EOF, i.e. `read` returned `0`),
fail with `errno == EINTR`, or fail with any other `errno`. -/
inductive ReadEvent where
  | chunk (bs : List Nat)
  | eintr
  | err
  deriving DecidableEq, Repr

/-- The result of `safe_read`: a negative return value (some `errno`
other than `EINTR` stopped the loop), or the bytes written into the
buffer (the return value is their count). -/
inductive SafeReadResult where
  | err
  | bytes (bs : List Nat)
  deriving DecidableEq, Repr

/-- The do/while drain loop of `safe_read`.  `count` is the number of
bytes still wanted, `acc` the bytes written into the buffer so far.
A `read` with `count = 0` returns `0` without consuming entropy, after
which the C code breaks out of the loop; hence the first equation.
`none` means the script ran out, i.e. the next `read` would block with
unspecified behaviour. -/
def safe_read_loop : List ReadEvent → Nat → List Nat →
    Option (SafeReadResult × List ReadEvent)
  | script, 0, acc => some (SafeReadResult.bytes acc, script)
  | [], _ + 1, _ => none
  | ReadEvent.eintr :: rest, n + 1, acc =>
      -- `while ((readnb = read(fd, buf, count)) < 0 && errno == EINTR);`
      safe_read_loop rest (n + 1) acc
  | ReadEvent.err :: rest, _ + 1, _ =>
      -- `if (readnb < (ssize_t) 0) return readnb;`
      some (SafeReadResult.err, rest)
  | ReadEvent.chunk bs :: rest, n + 1, acc =>
      if bs.length = 0 then
        -- `if (readnb == (ssize_t) 0) break;`
        some (SafeReadResult.bytes acc, rest)
      else if n + 1 - bs.length = 0 then
        -- `count -= readnb;` reached `0`: `while (count > 0)` exits
        some (SafeReadResult.bytes (acc ++ bs), rest)
      else
        safe_read_loop rest (n + 1 - bs.length) (acc ++ bs)

/-- `safe_read(fd, buf, count)`: drain `count` bytes from the scripted
device, surviving short reads and `EINTR`. -/
def safe_read (script : List ReadEvent) (count : Nat) :
    Option (SafeReadResult × List ReadEvent) :=
  safe_read_loop script count []

/-- `randombytes_sysrandom_init` of the POSIX build: store the result of
`randombytes_sysrandom_random_dev_open()` (the environment parameter
`openResult`) into the state; if it is `-1`, `abort()` (modelled `none`). -/
def randombytes_sysrandom_init (s : SysRandom) (openResult : Int) :
    Option SysRandom :=
  if openResult = -1 then none
  else some { s with random_data_source_fd := openResult }

/-- `randombytes_sysrandom_stir`: if not initialized, acquire the source
and set the flag; otherwise do nothing. -/
def randombytes_sysrandom_stir (s : SysRandom) (openResult : Int) :
    Option SysRandom :=
  if s.initialized = false then
    match randombytes_sysrandom_init s openResult with
    | none => none
    | some s' => some { s' with initialized := true }
  else some s

/-- `randombytes_sysrandom_stir_if_needed`: lazy wrapper around stir. -/
def randombytes_sysrandom_stir_if_needed (s : SysRandom) (openResult : Int) :
    Option SysRandom :=
  if s.initialized = false then randombytes_sysrandom_stir s openResult
  else some s

/-- `randombytes_sysrandom_close` of the POSIX build.  `osCloseOk` is the
environment: whether the `close(2)` syscall (issued only when the
descriptor is not `-1`) succeeds.  Returns the C return value and the
updated state. -/
def randombytes_sysrandom_close (s : SysRandom) (osCloseOk : Bool) :
    Int × SysRandom :=
  if s.random_data_source_fd ≠ -1 ∧ osCloseOk = true then
    (0, { s with random_data_source_fd := -1, initialized := false })
  else (-1, s)

/-- Outcome of an entropy-consuming operation: the script ran out
(`stuck`, the read blocks), the process called `abort()`, or a normal
return carrying a value. -/
inductive Outcome (α : Type) where
  | stuck
  | aborted
  | ok (v : α)
  deriving DecidableEq, Repr

/-- `randombytes_sysrandom_buf(buf, size)` of the POSIX build:
stir if needed, then `safe_read`; `abort()` unless exactly `size` bytes
came back.  On success returns the state, the buffer contents and the
unconsumed part of the script. -/
def randombytes_sysrandom_buf (s : SysRandom) (openResult : Int)
    (script : List ReadEvent) (size : Nat) :
    Outcome (SysRandom × List Nat × List ReadEvent) :=
  match randombytes_sysrandom_stir_if_needed s openResult with
  | none => Outcome.aborted
  | some s' =>
    match safe_read script size with
    | none => Outcome.stuck
    | some (SafeReadResult.err, _) => Outcome.aborted
    | some (SafeReadResult.bytes bs, rest) =>
      if bs.length = size then Outcome.ok (s', bs, rest)
      else Outcome.aborted

/-- The Windows branch of `randombytes_sysrandom_buf`: a single call to
`CryptGenRandom`, whose success and output are the environment; on
failure the process aborts. -/
def randombytes_sysrandom_buf_win (genOk : Bool) (bytes : List Nat) :
    Outcome (List Nat) :=
  if genOk = true then Outcome.ok bytes else Outcome.aborted

/-- Host-endian (little-endian host) interpretation of the 4-byte buffer
filled by `randombytes_sysrandom`. -/
def load32le : List Nat → Nat
  | [b0, b1, b2, b3] => b0 + 2 ^ 8 * b1 + 2 ^ 16 * b2 + 2 ^ 24 * b3
  | _ => 0

/-- `randombytes_sysrandom()`: stir if needed, fill 4 bytes, return them
as a 32-bit integer. -/
def randombytes_sysrandom (s : SysRandom) (openResult : Int)
    (script : List ReadEvent) :
    Outcome (Nat × SysRandom × List ReadEvent) :=
  match randombytes_sysrandom_stir_if_needed s openResult with
  | none => Outcome.aborted
  | some s₁ =>
    match randombytes_sysrandom_buf s₁ openResult script 4 with
    | Outcome.stuck => Outcome.stuck
    | Outcome.aborted => Outcome.aborted
    | Outcome.ok (s₂, bs, rest) => Outcome.ok (load32le bs, s₂, rest)

/-- Unsigned 32-bit negation: the value of `(uint32_t) -x` in C. -/
def neg32 (x : Nat) : Nat :=
  (2 ^ 32 - x % 2 ^ 32) % 2 ^ 32

/-- The rejection threshold `min = (uint32_t) (-upper_bound % upper_bound)`
computed by `randombytes_sysrandom_uniform`. -/
def uniform_min (upper_bound : Nat) : Nat :=
  neg32 upper_bound % upper_bound

/-- The `for (;;)` rejection loop of `randombytes_sysrandom_uniform`,
with the successive 32-bit values returned by `randombytes_sysrandom()`
abstracted as a list of samples.  `none` means the sample stream ran out
before a sample was accepted. -/
def uniform_loop (upper_bound min : Nat) : List Nat → Option Nat
  | [] => none
  | r :: rs =>
    if min ≤ r then some (r % upper_bound)
    else uniform_loop upper_bound min rs

/-- `randombytes_sysrandom_uniform(upper_bound)` over a stream of 32-bit
samples: return `0` for bounds below `2`, otherwise rejection-sample. -/
def randombytes_sysrandom_uniform (upper_bound : Nat) (samples : List Nat) :
    Option Nat :=
  if upper_bound < 2 then some 0
  else uniform_loop upper_bound (uniform_min upper_bound) samples

/-- The `for (;;)` rejection loop of `randombytes_sysrandom_uniform` at the
state level, each iteration calling `randombytes_sysrandom`; `fuel` bounds
the number of modelled iterations (the C loop is unbounded), `stuck` when
it runs out. -/
def uniform_reject_loop (openResult : Int) (upper_bound min : Nat) :
    Nat → SysRandom → List ReadEvent →
    Outcome (Nat × SysRandom × List ReadEvent)
  | 0, _, _ => Outcome.stuck
  | fuel + 1, s, script =>
    match randombytes_sysrandom s openResult script with
    | Outcome.stuck => Outcome.stuck
    | Outcome.aborted => Outcome.aborted
    | Outcome.ok (r, s', rest) =>
      if min ≤ r then Outcome.ok (r % upper_bound, s', rest)
      else uniform_reject_loop openResult upper_bound min fuel s' rest

/-- `randombytes_sysrandom_uniform(upper_bound)` at the state level. -/
def randombytes_sysrandom_uniform_state (s : SysRandom) (openResult : Int)
    (script : List ReadEvent) (upper_bound fuel : Nat) :
    Outcome (Nat × SysRandom × List ReadEvent) :=
  if upper_bound < 2 then Outcome.ok (0, s, script)
  else uniform_reject_loop openResult upper_bound (uniform_min upper_bound)
    fuel s script

/-- A script validly delivering `n` bytes to the drain loop: an
interleaving of `eintr` failures and positive-length chunks `cs`, each no
longer than what is still wanted, summing to exactly `n`; `rest` is the
part of the script left untouched. -/
inductive Delivers : Nat → List ReadEvent → List (List Nat) → List ReadEvent → Prop
  | zero (script : List ReadEvent) : Delivers 0 script [] script
  | eintr {n : Nat} {script : List ReadEvent} {cs : List (List Nat)}
      {rest : List ReadEvent} :
      0 < n → Delivers n script cs rest →
      Delivers n (ReadEvent.eintr :: script) cs rest
  | chunk {n : Nat} {bs : List Nat} {script : List ReadEvent}
      {cs : List (List Nat)} {rest : List ReadEvent} :
      0 < n → 0 < bs.length → bs.length ≤ n →
      Delivers (n - bs.length) script cs rest →
      Delivers n (ReadEvent.chunk bs :: script) (bs :: cs) rest

/-- A script on which the drain loop fails before `n` bytes arrive:
after some interleaving of `eintr` failures and positive-length short
chunks, the device returns `0` (EOF) or fails with an `errno` other than
`EINTR` while bytes are still wanted. -/
inductive FailDelivers : Nat → List ReadEvent → Prop
  | eof {n : Nat} {script : List ReadEvent} :
      0 < n → FailDelivers n (ReadEvent.chunk [] :: script)
  | err {n : Nat} {script : List ReadEvent} :
      0 < n → FailDelivers n (ReadEvent.err :: script)
  | eintr {n : Nat} {script : List ReadEvent} :
      0 < n → FailDelivers n script →
      FailDelivers n (ReadEvent.eintr :: script)
  | chunk {n : Nat} {bs : List Nat} {script : List ReadEvent} :
      0 < n → 0 < bs.length → bs.length < n →
      FailDelivers (n - bs.length) script →
      FailDelivers n (ReadEvent.chunk bs :: script)

/-- The state invariant of the POSIX build: the `initialized` flag is set
exactly when a descriptor is installed. -/
def StreamInv (s : SysRandom) : Prop :=
  s.initialized = true ↔ s.random_data_source_fd ≠ -1

/-! ### Arithmetic of the rejection threshold -/

lemma neg32_mod (ub : Nat) (h1 : 0 < ub) (h32 : ub < 2 ^ 32) :
    uniform_min ub = 2 ^ 32 % ub := by
  unfold uniform_min neg32
  rw [Nat.mod_eq_of_lt h32,
    Nat.mod_eq_of_lt (by omega : 2 ^ 32 - ub < 2 ^ 32)]
  conv_rhs => rw [show (2 : Nat) ^ 32 = (2 ^ 32 - ub) + ub by omega]
  rw [Nat.add_mod_right]

lemma two_pow_mod_lt_half (ub : Nat) (h2 : 2 ≤ ub) (h32 : ub < 2 ^ 32) :
    2 ^ 32 % ub < 2 ^ 31 := by
  rcases le_or_lt ub (2 ^ 31) with h | h
  · exact lt_of_lt_of_le (Nat.mod_lt _ (by omega)) h
  · rw [Nat.mod_eq_sub_mod (by omega : ub ≤ 2 ^ 32),
      Nat.mod_eq_of_lt (by omega : 2 ^ 32 - ub < ub)]
    omega

/-! ### The rejection loop against a sample stream -/

lemma uniform_loop_find (ub m : Nat) :
    ∀ samples v, uniform_loop ub m samples = some v →
      ∃ r, samples.find? (fun x => decide (m ≤ x)) = some r ∧ v = r % ub := by
  intro samples
  induction samples with
  | nil => intro v h; simp [uniform_loop] at h
  | cons r rs ih =>
    intro v h
    rw [uniform_loop] at h
    by_cases hr : m ≤ r
    · rw [if_pos hr] at h
      injection h with h
      exact ⟨r, by simp [List.find?, hr], h.symm⟩
    · rw [if_neg hr] at h
      obtain ⟨r', hfind, hv⟩ := ih v h
      exact ⟨r', by simp [List.find?, hr, hfind], hv⟩

/-! ### Claim theorems about the uniform sampler -/

/-- C3: for every `upper_bound` at least `2` (a `uint32_t`, hence below
`2^32`), the rejection threshold `(uint32_t) (-upper_bound % upper_bound)`
computed by `randombytes_sysrandom_uniform` equals `2^32 mod upper_bound`. -/
theorem uniform_min_eq_two_pow_mod (ub : Nat) (h2 : 2 ≤ ub)
    (h32 : ub < 2 ^ 32) : uniform_min ub = 2 ^ 32 % ub :=
  neg32_mod ub (by omega) h32

theorem uniform_min_eq_two_pow_mod_witness :
    2 ≤ 10 ∧ 10 < 2 ^ 32 ∧ uniform_min 10 = 2 ^ 32 % 10 :=
  ⟨by norm_num, by norm_num,
    uniform_min_eq_two_pow_mod 10 (by norm_num) (by norm_num)⟩

/-- C6: for every `upper_bound` at least `2`, the rejection threshold is
below `2^31`, so a 32-bit sample is rejected with probability below one
half and the expected number of draws per call is at most `2`. -/
theorem uniform_min_below_half (ub : Nat) (h2 : 2 ≤ ub) (h32 : ub < 2 ^ 32) :
    uniform_min ub < 2 ^ 31 ∧
    (uniform_min ub : ℚ) / 2 ^ 32 < 1 / 2 ∧
    (2 ^ 32 : ℚ) / (2 ^ 32 - (uniform_min ub : ℚ)) ≤ 2 := by
  have hm : uniform_min ub < 2 ^ 31 := by
    rw [neg32_mod ub (by omega) h32]
    exact two_pow_mod_lt_half ub h2 h32
  have hmq : (uniform_min ub : ℚ) < 2 ^ 31 := by exact_mod_cast hm
  refine ⟨hm, ?_, ?_⟩
  · rw [div_lt_div_iff₀ (by norm_num) (by norm_num)]
    nlinarith
  · rw [div_le_iff₀ (by nlinarith)]
    nlinarith

theorem uniform_min_below_half_witness :
    2 ≤ 10 ∧ 10 < 2 ^ 32 ∧
    (uniform_min 10 < 2 ^ 31 ∧
      (uniform_min 10 : ℚ) / 2 ^ 32 < 1 / 2 ∧
      (2 ^ 32 : ℚ) / (2 ^ 32 - (uniform_min 10 : ℚ)) ≤ 2) :=
  ⟨by norm_num, by norm_num,
    uniform_min_below_half 10 (by norm_num) (by norm_num)⟩

/-- C2: for every `upper_bound` at least `2`, whenever
`randombytes_sysrandom_uniform` returns, its value lies in
`[0, upper_bound)` and equals `r mod upper_bound` where `r` is the first
32-bit sample of the stream that is at least `2^32 mod upper_bound`. -/
theorem uniform_returns_first_accepted (ub : Nat) (samples : List Nat)
    (v : Nat) (h2 : 2 ≤ ub) (h32 : ub < 2 ^ 32)
    (hret : randombytes_sysrandom_uniform ub samples = some v) :
    v < ub ∧ ∃ r, samples.find? (fun x => decide (2 ^ 32 % ub ≤ x)) = some r ∧
      v = r % ub := by
  rw [randombytes_sysrandom_uniform, if_neg (by omega),
    neg32_mod ub (by omega) h32] at hret
  obtain ⟨r, hfind, hv⟩ := uniform_loop_find ub (2 ^ 32 % ub) samples v hret
  exact ⟨hv ▸ Nat.mod_lt r (by omega), r, hfind, hv⟩

theorem uniform_returns_first_accepted_witness :
    (2 ≤ 10 ∧ 10 < 2 ^ 32 ∧
      randombytes_sysrandom_uniform 10 [0, 4294967295] = some 5) ∧
    (5 < 10 ∧ ∃ r,
      [0, 4294967295].find? (fun x => decide (2 ^ 32 % 10 ≤ x)) = some r ∧
      5 = r % 10) :=
  ⟨⟨by norm_num, by norm_num, by decide⟩,
    uniform_returns_first_accepted 10 [0, 4294967295] 5 (by norm_num)
      (by norm_num) (by decide)⟩

/-- C7: `uniform(10)` against the sample stream
`[0x00000000, 0xFFFFFFFF, 0x00000003, 0x00000009]`: the threshold is `6`,
the first sample `0` is rejected as below it, the second sample
`0xFFFFFFFF` is accepted, and the returned value is `0xFFFFFFFF mod 10 = 5`. -/
theorem uniform_scripted_ten :
    uniform_min 10 = 6 ∧ (0 : Nat) < uniform_min 10 ∧
    uniform_min 10 ≤ 4294967295 ∧
    uniform_loop 10 (uniform_min 10) [4294967295, 3, 9] = some 5 ∧
    randombytes_sysrandom_uniform 10 [0, 4294967295, 3, 9] = some 5 := by
  decide

/-- C9: for every `upper_bound` below `2`, `randombytes_sysrandom_uniform`
returns `0` without drawing a sample; in particular `uniform(0) = 0` and
`uniform(1) = 0`, and this is a normal return, not an error. -/
theorem uniform_degenerate (samples : List Nat) :
    randombytes_sysrandom_uniform 0 samples = some 0 ∧
    randombytes_sysrandom_uniform 1 samples = some 0 ∧
    ∀ ub, ub < 2 → randombytes_sysrandom_uniform ub samples = some 0 := by
  refine ⟨?_, ?_, fun ub h => ?_⟩ <;>
    simp [randombytes_sysrandom_uniform, *]

theorem uniform_degenerate_witness :
    randombytes_sysrandom_uniform 1 [5] = some 0 :=
  (uniform_degenerate [5]).2.2 1 (by norm_num)

/-! ### The drain loop against a scripted device -/

lemma Delivers.flatten_length {n : Nat} {script : List ReadEvent}
    {cs : List (List Nat)} {rest : List ReadEvent}
    (h : Delivers n script cs rest) : cs.flatten.length = n := by
  induction h with
  | zero script => simp
  | eintr hn hd ih => exact ih
  | @chunk n bs script cs rest hn hbs hle hd ih =>
    simp only [List.flatten_cons, List.length_append]
    omega

lemma Delivers.safe_read_loop_eq {n : Nat} {script : List ReadEvent}
    {cs : List (List Nat)} {rest : List ReadEvent}
    (h : Delivers n script cs rest) :
    ∀ acc, safe_read_loop script n acc =
      some (SafeReadResult.bytes (acc ++ cs.flatten), rest) := by
  induction h with
  | zero script => intro acc; simp [safe_read_loop]
  | @eintr n script cs rest hn hd ih =>
    intro acc
    obtain ⟨k, rfl⟩ : ∃ k, n = k + 1 := ⟨n - 1, by omega⟩
    rw [safe_read_loop]
    exact ih acc
  | @chunk n bs script cs rest hn hbs hle hd ih =>
    intro acc
    obtain ⟨k, rfl⟩ : ∃ k, n = k + 1 := ⟨n - 1, by omega⟩
    rw [safe_read_loop, if_neg (by omega)]
    by_cases hz : k + 1 - bs.length = 0
    · rw [if_pos hz]
      rw [hz] at hd
      cases hd with
      | zero => simp
      | eintr h1 h2 => omega
      | chunk h1 h2 h3 h4 => omega
    · rw [if_neg hz, ih (acc ++ bs)]
      simp

lemma FailDelivers.safe_read_loop_fails {n : Nat} {script : List ReadEvent}
    (h : FailDelivers n script) :
    ∀ acc,
      (∃ rest, safe_read_loop script n acc =
        some (SafeReadResult.err, rest)) ∨
      ∃ bs rest, safe_read_loop script n acc =
        some (SafeReadResult.bytes bs, rest) ∧ bs.length < acc.length + n := by
  induction h with
  | @eof n script hn =>
    intro acc
    obtain ⟨k, rfl⟩ : ∃ k, n = k + 1 := ⟨n - 1, by omega⟩
    rw [safe_read_loop]
    exact Or.inr ⟨acc, script, by simp, by omega⟩
  | @err n script hn =>
    intro acc
    obtain ⟨k, rfl⟩ : ∃ k, n = k + 1 := ⟨n - 1, by omega⟩
    rw [safe_read_loop]
    exact Or.inl ⟨script, rfl⟩
  | @eintr n script hn hf ih =>
    intro acc
    obtain ⟨k, rfl⟩ : ∃ k, n = k + 1 := ⟨n - 1, by omega⟩
    rw [safe_read_loop]
    exact ih acc
  | @chunk n bs script hn hbs hlt hf ih =>
    intro acc
    obtain ⟨k, rfl⟩ : ∃ k, n = k + 1 := ⟨n - 1, by omega⟩
    rw [safe_read_loop, if_neg (by omega), if_neg (by omega)]
    rcases ih (acc ++ bs) with ⟨rest, hr⟩ | ⟨bs', rest, hr, hlen⟩
    · exact Or.inl ⟨rest, hr⟩
    · refine Or.inr ⟨bs', rest, hr, ?_⟩
      simp only [List.length_append] at hlen ⊢
      omega

/-! ### Claim theorems about `randombytes_sysrandom_buf` -/

/-- C1: for every requested `size` (including `0`) and every scripted
device delivering the bytes across arbitrarily many positive-length short
reads interleaved with `EINTR` failures, `randombytes_sysrandom_buf`
returns normally with the buffer holding exactly `size` bytes, the
concatenation of the delivered chunks. -/
lemma stir_if_needed_total {s : SysRandom} {o : Int}
    (h : s.initialized = true ∨ o ≠ -1) :
    ∃ s', randombytes_sysrandom_stir_if_needed s o = some s' := by
  by_cases hi : s.initialized = true
  · exact ⟨s, by simp [randombytes_sysrandom_stir_if_needed, hi]⟩
  · have ho : o ≠ -1 := h.resolve_left hi
    refine ⟨{ s with random_data_source_fd := o, initialized := true }, ?_⟩
    simp only [Bool.not_eq_true] at hi
    simp [randombytes_sysrandom_stir_if_needed, randombytes_sysrandom_stir,
      randombytes_sysrandom_init, hi, ho]

theorem randombytes_sysrandom_buf_short_reads (s : SysRandom) (o : Int)
    (script rest : List ReadEvent) (cs : List (List Nat)) (size : Nat)
    (hs : s.initialized = true ∨ o ≠ -1) (hd : Delivers size script cs rest) :
    (∃ s', randombytes_sysrandom_buf s o script size =
      Outcome.ok (s', cs.flatten, rest)) ∧ cs.flatten.length = size := by
  have hlen := hd.flatten_length
  have hsr : safe_read script size =
      some (SafeReadResult.bytes cs.flatten, rest) := by
    simpa [safe_read] using hd.safe_read_loop_eq []
  obtain ⟨s', hst⟩ := stir_if_needed_total hs
  refine ⟨⟨s', ?_⟩, hlen⟩
  simp [randombytes_sysrandom_buf, hst, hsr, hlen]

theorem randombytes_sysrandom_buf_short_reads_witness :
    (∃ s', randombytes_sysrandom_buf ⟨-1, false⟩ 3
        [ReadEvent.chunk [1, 2], ReadEvent.eintr, ReadEvent.chunk [3]] 3 =
      Outcome.ok (s', ([[1, 2], [3]] : List (List Nat)).flatten, [])) ∧
    ([[1, 2], [3]] : List (List Nat)).flatten.length = 3 :=
  randombytes_sysrandom_buf_short_reads ⟨-1, false⟩ 3
    [ReadEvent.chunk [1, 2], ReadEvent.eintr, ReadEvent.chunk [3]] []
    [[1, 2], [3]] 3 (Or.inr (by decide))
    (Delivers.chunk (by norm_num) (by norm_num) (by norm_num)
      (Delivers.eintr (by norm_num)
        (Delivers.chunk (by norm_num) (by norm_num) (by norm_num)
          (Delivers.zero []))))

/-- C4: `randombytes_sysrandom_buf` aborts and never returns normally
when the entropy read fails: on POSIX when `read` returns `0` (EOF)
before `size` bytes arrived or fails with an `errno` other than `EINTR`,
and on Windows when `CryptGenRandom` reports failure. -/
theorem randombytes_sysrandom_buf_aborts (s : SysRandom) (o : Int)
    (script : List ReadEvent) (size : Nat) (bytes : List Nat)
    (hs : s.initialized = true ∨ o ≠ -1) (hf : FailDelivers size script) :
    randombytes_sysrandom_buf s o script size = Outcome.aborted ∧
    randombytes_sysrandom_buf_win false bytes = Outcome.aborted := by
  refine ⟨?_, rfl⟩
  obtain ⟨s', hst⟩ := stir_if_needed_total hs
  rcases hf.safe_read_loop_fails [] with ⟨rest, hsr⟩ | ⟨bs, rest, hsr, hlt⟩
  · simp [randombytes_sysrandom_buf, hst, safe_read, hsr]
  · have hne : bs.length ≠ size := by simp at hlt; omega
    simp [randombytes_sysrandom_buf, hst, safe_read, hsr, hne]

theorem randombytes_sysrandom_buf_aborts_witness :
    randombytes_sysrandom_buf ⟨3, true⟩ 3
        [ReadEvent.chunk [7], ReadEvent.chunk []] 2 = Outcome.aborted ∧
    randombytes_sysrandom_buf_win false [0] = Outcome.aborted :=
  randombytes_sysrandom_buf_aborts ⟨3, true⟩ 3
    [ReadEvent.chunk [7], ReadEvent.chunk []] 2 [0] (Or.inl rfl)
    (FailDelivers.chunk (by norm_num) (by norm_num) (by norm_num)
      (FailDelivers.eof (by norm_num)))

/-! ### Lifecycle: close and stir -/

/-- C5: `randombytes_sysrandom_close` returns `-1` and leaves the state
unchanged when the descriptor is absent (uninitialized provider) or the
OS `close` fails; on an installed descriptor with a succeeding OS
`close` it returns `0`, resets the descriptor to `-1` and clears the
flag, so an immediately following second close returns `-1`. -/
theorem close_spec (s : SysRandom) (osCloseOk : Bool) :
    (s.random_data_source_fd = -1 →
      randombytes_sysrandom_close s osCloseOk = (-1, s)) ∧
    (osCloseOk = false →
      randombytes_sysrandom_close s osCloseOk = (-1, s)) ∧
    (s.random_data_source_fd ≠ -1 → osCloseOk = true →
      randombytes_sysrandom_close s osCloseOk =
        (0, { random_data_source_fd := -1, initialized := false }) ∧
      ∀ ok₂, randombytes_sysrandom_close
          { random_data_source_fd := -1, initialized := false } ok₂ =
        (-1, { random_data_source_fd := -1, initialized := false })) := by
  refine ⟨fun h => ?_, fun h => ?_, fun h1 h2 => ⟨?_, fun ok₂ => ?_⟩⟩ <;>
    simp [randombytes_sysrandom_close, *]

theorem close_spec_witness :
    randombytes_sysrandom_close ⟨5, true⟩ true =
      (0, { random_data_source_fd := -1, initialized := false }) ∧
    randombytes_sysrandom_close
        { random_data_source_fd := -1, initialized := false } true =
      (-1, { random_data_source_fd := -1, initialized := false }) :=
  ⟨((close_spec ⟨5, true⟩ true).2.2 (by decide) rfl).1,
    ((close_spec ⟨5, true⟩ true).2.2 (by decide) rfl).2 true⟩

/-- C8: `randombytes_sysrandom_stir` is idempotent.  From an
uninitialized state it acquires the source (or aborts when acquisition
fails) and sets the flag; from an initialized state it is a no-op, so
every later stir returns the state produced by the first acquisition
unchanged, for any open result, i.e. without a further acquisition. -/
theorem stir_idempotent (s : SysRandom) (o : Int) :
    (s.initialized = false → o ≠ -1 →
      randombytes_sysrandom_stir s o =
        some { random_data_source_fd := o, initialized := true }) ∧
    (s.initialized = false → o = -1 →
      randombytes_sysrandom_stir s o = none) ∧
    (s.initialized = true → randombytes_sysrandom_stir s o = some s) ∧
    (∀ s₁ o₂, randombytes_sysrandom_stir s o = some s₁ →
      randombytes_sysrandom_stir s₁ o₂ = some s₁) := by
  have hinit : ∀ s₁, randombytes_sysrandom_stir s o = some s₁ →
      s₁.initialized = true := by
    intro s₁ h
    rw [randombytes_sysrandom_stir] at h
    by_cases hs : s.initialized = false
    · rw [if_pos hs, randombytes_sysrandom_init] at h
      by_cases ho : o = -1
      · simp [ho] at h
      · rw [if_neg ho] at h
        injection h with h
        rw [← h]
    · rw [if_neg hs] at h
      injection h with h
      rw [← h]
      simpa using hs
  refine ⟨fun hs ho => ?_, fun hs ho => ?_, fun hs => ?_,
    fun s₁ o₂ h => ?_⟩
  · simp [randombytes_sysrandom_stir, randombytes_sysrandom_init, hs, ho]
  · simp [randombytes_sysrandom_stir, randombytes_sysrandom_init, hs, ho]
  · simp [randombytes_sysrandom_stir, hs]
  · simp [randombytes_sysrandom_stir, hinit s₁ h]

theorem stir_idempotent_witness :
    randombytes_sysrandom_stir ⟨-1, false⟩ 3 =
      some { random_data_source_fd := 3, initialized := true } ∧
    randombytes_sysrandom_stir ⟨3, true⟩ 7 = some ⟨3, true⟩ :=
  ⟨(stir_idempotent ⟨-1, false⟩ 3).1 rfl (by decide),
    (stir_idempotent ⟨-1, false⟩ 3).2.2.2 ⟨3, true⟩ 7
      ((stir_idempotent ⟨-1, false⟩ 3).1 rfl (by decide))⟩

/-! ### The state invariant -/

lemma stir_preserves_inv {s s' : SysRandom} {o : Int} (hs : StreamInv s)
    (h : randombytes_sysrandom_stir s o = some s') : StreamInv s' := by
  rw [randombytes_sysrandom_stir] at h
  by_cases hi : s.initialized = false
  · rw [if_pos hi, randombytes_sysrandom_init] at h
    by_cases ho : o = -1
    · simp [ho] at h
    · rw [if_neg ho] at h
      injection h with h
      rw [← h]
      simp [StreamInv, ho]
  · rw [if_neg hi] at h
    injection h with h
    rw [← h]
    exact hs

lemma stir_if_needed_preserves_inv {s s' : SysRandom} {o : Int}
    (hs : StreamInv s)
    (h : randombytes_sysrandom_stir_if_needed s o = some s') :
    StreamInv s' := by
  rw [randombytes_sysrandom_stir_if_needed] at h
  by_cases hi : s.initialized = false
  · rw [if_pos hi] at h
    exact stir_preserves_inv hs h
  · rw [if_neg hi] at h
    injection h with h
    rw [← h]
    exact hs

lemma buf_ok_stir {s s' : SysRandom} {o : Int} {script rest : List ReadEvent}
    {bs : List Nat} {n : Nat}
    (h : randombytes_sysrandom_buf s o script n = Outcome.ok (s', bs, rest)) :
    randombytes_sysrandom_stir_if_needed s o = some s' := by
  unfold randombytes_sysrandom_buf at h
  split at h
  · simp at h
  · rename_i s₁ hst
    split at h
    · simp at h
    · simp at h
    · split at h
      · simp only [Outcome.ok.injEq, Prod.mk.injEq] at h
        rw [hst, h.1]
      · simp at h

lemma buf_ok_inv {s s' : SysRandom} {o : Int} {script rest : List ReadEvent}
    {bs : List Nat} {n : Nat} (hs : StreamInv s)
    (h : randombytes_sysrandom_buf s o script n = Outcome.ok (s', bs, rest)) :
    StreamInv s' :=
  stir_if_needed_preserves_inv hs (buf_ok_stir h)

lemma random_ok_inv {s s' : SysRandom} {o : Int}
    {script rest : List ReadEvent} {r : Nat} (hs : StreamInv s)
    (h : randombytes_sysrandom s o script = Outcome.ok (r, s', rest)) :
    StreamInv s' := by
  unfold randombytes_sysrandom at h
  split at h
  · simp at h
  · rename_i s₁ hst
    have hs₁ := stir_if_needed_preserves_inv hs hst
    split at h
    · simp at h
    · simp at h
    · rename_i s₂ bs rest₂ hbuf
      simp only [Outcome.ok.injEq, Prod.mk.injEq] at h
      exact h.2.1 ▸ buf_ok_inv hs₁ hbuf

lemma uniform_reject_loop_inv (o : Int) (ub m : Nat) :
    ∀ fuel (s : SysRandom) script r s' rest, StreamInv s →
      uniform_reject_loop o ub m fuel s script = Outcome.ok (r, s', rest) →
      StreamInv s' := by
  intro fuel
  induction fuel with
  | zero =>
    intro s script r s' rest hs h
    simp [uniform_reject_loop] at h
  | succ k ih =>
    intro s script r s' rest hs h
    rw [uniform_reject_loop] at h
    split at h
    · simp at h
    · simp at h
    · rename_i r₁ s₁ rest₁ hrand
      have hs₁ := random_ok_inv hs hrand
      split at h
      · simp only [Outcome.ok.injEq, Prod.mk.injEq] at h
        exact h.2.1 ▸ hs₁
      · exact ih s₁ rest₁ r s' rest hs₁ h

/-- C10: in the POSIX build, `initialized` is set exactly when a
descriptor other than `-1` is installed: this holds of the initial
`stream` and is preserved by every public operation — stir, buffer fill,
32-bit random, uniform, and close. -/
theorem stream_invariant_preserved :
    StreamInv stream ∧
    (∀ s o s', StreamInv s →
      randombytes_sysrandom_stir s o = some s' → StreamInv s') ∧
    (∀ s b r s', StreamInv s →
      randombytes_sysrandom_close s b = (r, s') → StreamInv s') ∧
    (∀ s o script n s' bs rest, StreamInv s →
      randombytes_sysrandom_buf s o script n = Outcome.ok (s', bs, rest) →
      StreamInv s') ∧
    (∀ s o script r s' rest, StreamInv s →
      randombytes_sysrandom s o script = Outcome.ok (r, s', rest) →
      StreamInv s') ∧
    (∀ s o script ub fuel r s' rest, StreamInv s →
      randombytes_sysrandom_uniform_state s o script ub fuel =
        Outcome.ok (r, s', rest) → StreamInv s') := by
  refine ⟨by simp [StreamInv, stream], fun s o s' hs h => ?_,
    fun s b r s' hs h => ?_, fun s o script n s' bs rest hs h => ?_,
    fun s o script r s' rest hs h => ?_,
    fun s o script ub fuel r s' rest hs h => ?_⟩
  · exact stir_preserves_inv hs h
  · rw [randombytes_sysrandom_close] at h
    by_cases hc : s.random_data_source_fd ≠ -1 ∧ b = true
    · rw [if_pos hc] at h
      injection h with h1 h2
      rw [← h2]
      simp [StreamInv]
    · rw [if_neg hc] at h
      injection h with h1 h2
      rw [← h2]
      exact hs
  · exact buf_ok_inv hs h
  · exact random_ok_inv hs h
  · rw [randombytes_sysrandom_uniform_state] at h
    by_cases hub : ub < 2
    · rw [if_pos hub] at h
      simp only [Outcome.ok.injEq, Prod.mk.injEq] at h
      exact h.2.1 ▸ hs
    · rw [if_neg hub] at h
      exact uniform_reject_loop_inv o ub (uniform_min ub) fuel s script
        r s' rest hs h

theorem stream_invariant_preserved_witness :
    StreamInv { random_data_source_fd := 3, initialized := true } :=
  stream_invariant_preserved.2.1 ⟨-1, false⟩ 3 ⟨3, true⟩
    (by simp [StreamInv]) (by decide)

end Sysrandom
